import Mathlib

/-!
Verification of the `rag_evals` RAG-evaluation library.

This file gives a shallow embedding of the parts of the library that the
specification's testable properties talk about:

* `ContextValidationMixin.validate_chunks_against_context` and the graded-chunk
  schemas `ChunkScore`, `ChunkBinaryScore`, `ChunkGraded`, `ChunkGradedBinary`
  (rag_evals/base.py);
* the statement validators `ensure_list_of_ints` and
  `validate_supporting_chunks` of `StatementEvaluation`
  (rag_evals/metrics/faithfulness.py);
* the score-extraction property `EvaluationResult.score` (rag_evals/utils.py);
* the context indexer inside `ContextEvaluation.grade` (rag_evals/base.py).

Python floats are modelled as rationals, Python exceptions as `Except`/`Option`
failure values, and duck typing (attribute probing with `hasattr`) as optional
fields.  `logger.warning` calls are modelled by separate pure functions
computing the data that would be logged.
-/

deriving instance DecidableEq for Except

namespace RagEvals

/-- Graded chunk entries as the judge returns them.  `ChunkScore` models
`base.ChunkScore` (an `id_chunk` plus a float score in [0,1]),
`ChunkBinaryScore` models `base.ChunkBinaryScore` (an `id_chunk` plus a bool
score), and `NoId` models an entry object that lacks an `id_chunk` attribute
(the `hasattr(chunk, 'id_chunk')` probe in the validator's first pass). -/
inductive GradedChunk where
  | ChunkScore (id_chunk : Int) (score : ℚ)
  | ChunkBinaryScore (id_chunk : Int) (score : Bool)
  | NoId
deriving DecidableEq, Repr

/-- The `id_chunk` attribute of an entry; `none` models the absence of the
attribute. -/
def GradedChunk.id_chunk : GradedChunk → Option Int
  | .ChunkScore i _ => some i
  | .ChunkBinaryScore i _ => some i
  | .NoId => none

/-- The numeric value Python's `sum(chunk.score for chunk in ...)` adds for one
entry: the float score, or the bool score coerced to 0/1.  (`NoId` entries are
never a member of a validated `graded_chunks` list; the value 0 here is
arbitrary and no theorem depends on it.) -/
def GradedChunk.score : GradedChunk → ℚ
  | .ChunkScore _ s => s
  | .ChunkBinaryScore _ b => if b then 1 else 0
  | .NoId => 0

/-- The membership test `chunk.id_chunk in valid_ids` of the validator's first
pass, where `valid_ids = set(range(n))`; entries without the attribute never
reach this test. -/
def GradedChunk.inRange (n : Nat) (c : GradedChunk) : Bool :=
  match c.id_chunk with
  | some i => decide (0 ≤ i ∧ i < (n : Int))
  | none => false

/-- The `invalid_ids` set that the first pass of
`ContextValidationMixin.validate_chunks_against_context` collects: every
identifier carried by an entry that is not in `set(range(n))`. -/
def invalid_ids (n : Nat) (chunks : List GradedChunk) : Finset Int :=
  ((chunks.filterMap GradedChunk.id_chunk).filter
    (fun i => decide (¬(0 ≤ i ∧ i < (n : Int))))).toFinset

/-- The `valid_chunks` list after the first pass: entries with an in-range
identifier, original order kept; entries without an `id_chunk` attribute are
skipped (each with a `logger.warning`). -/
def first_pass_valid (n : Nat) (chunks : List GradedChunk) : List GradedChunk :=
  chunks.filter (GradedChunk.inRange n)

/-- The identifiers in `processed_ids` after the first pass. -/
def processed_ids (n : Nat) (chunks : List GradedChunk) : List Int :=
  (first_pass_valid n chunks).filterMap GradedChunk.id_chunk

/-- The `missing_chunk_ids_added` list of the second pass: context positions
for which the judge supplied no entry.  A nonempty list is reported through
`logger.warning` (a recoverable warning, not an error). -/
def missing_chunk_ids_added (n : Nat) (chunks : List GradedChunk) : List Nat :=
  (List.range n).filter (fun i => decide ((i : Int) ∉ processed_ids n chunks))

/-- The entries the first pass skips because they lack an `id_chunk` attribute;
each one is reported through `logger.warning` and dropped. -/
def chunks_without_id (chunks : List GradedChunk) : List GradedChunk :=
  chunks.filter (fun c => c.id_chunk.isNone)

/-- Sort key of `valid_chunks.sort(key=lambda x: x.id_chunk)`.  Every entry
reaching the sort carries an identifier, so the default 0 is never used. -/
def sortKey (c : GradedChunk) : Int := c.id_chunk.getD 0

/-- The comparison the final sort uses. -/
def chunkLE (a b : GradedChunk) : Prop := sortKey a ≤ sortKey b

instance : DecidableRel chunkLE :=
fun a b => inferInstanceAs (Decidable (sortKey a ≤ sortKey b))

instance : IsTotal GradedChunk chunkLE :=
⟨fun a b => le_total (sortKey a) (sortKey b)⟩

instance : IsTrans GradedChunk chunkLE :=
⟨fun _ _ _ hab hbc => le_trans hab hbc⟩

/-- Shallow embedding of
`ContextValidationMixin.validate_chunks_against_context` (base.py).  `chunks`
is the parsed `graded_chunks` field, `n` the length of the context list handed
over in the validation context.  An empty input returns immediately; otherwise
out-of-range identifiers raise `ValueError` carrying the `invalid_ids` set;
otherwise missing context positions are appended as `ChunkScore(id_chunk=i,
score=0.0)` and the result is sorted (stably) by `id_chunk`. -/
def validate_chunks_against_context (chunks : List GradedChunk) (n : Nat) :
    Except (Finset Int) (List GradedChunk) :=
  if chunks = [] then .ok []
  else if invalid_ids n chunks = ∅ then
    .ok (List.insertionSort chunkLE
      (first_pass_valid n chunks ++
        (missing_chunk_ids_added n chunks).map
          (fun i => GradedChunk.ChunkScore (Int.ofNat i) 0)))
  else .error (invalid_ids n chunks)

/-- The `avg_score` property shared by `ChunkGraded` and `ChunkGradedBinary`:
`sum(chunk.score for chunk in self.graded_chunks) / len(self.graded_chunks)`.
On an empty list Python raises `ZeroDivisionError`, modelled as `none`. -/
def avg_score (graded_chunks : List GradedChunk) : Option ℚ :=
  if graded_chunks.length = 0 then none
  else some ((graded_chunks.map GradedChunk.score).sum / (graded_chunks.length : ℚ))

/-- A structured result as `EvaluationResult.score` (utils.py) probes it with
`hasattr`: a field is `some` exactly when the attribute is present.
`graded_chunks?` records whether the result carries a graded-entries
collection (as `ChunkGraded`/`ChunkGradedBinary` do). -/
structure ResultModel where
  score? : Option ℚ
  overall_score? : Option ℚ
  graded_chunks? : Option (List GradedChunk)
deriving DecidableEq

/-- Shallow embedding of the `EvaluationResult.score` property (utils.py):
`result.score` if the attribute exists, else `result.overall_score` if that
attribute exists, else a `logger.warning` and the default `0.0`. -/
def EvaluationResult.score (result : ResultModel) : ℚ :=
  match result.score? with
  | some s => s
  | none =>
    match result.overall_score? with
    | some s => s
    | none => 0

/-- Modelled from the spec (section 4.5), for comparison with the code: the
score-extraction convention "prefer a direct score field; else a direct
overall_score field; else the derived average over a graded-entries
collection; else score is undefined". -/
def spec_score_convention (result : ResultModel) : Option ℚ :=
  match result.score? with
  | some s => some s
  | none =>
    match result.overall_score? with
    | some s => some s
    | none =>
      match result.graded_chunks? with
      | some gs => avg_score gs
      | none => none

/-- One statement of a faithfulness result
(`metrics.faithfulness.StatementEvaluation`).  `supporting_chunk_ids = none`
models the field being absent/null. -/
structure StatementEvaluation where
  statement : String
  is_supported : Bool
  supporting_chunk_ids : Option (List Int)
deriving DecidableEq

/-- Failure values of `StatementEvaluation.ensure_list_of_ints`:
`noContextChunks` models the `AssertionError` of
`assert len(chunk_ids) > 0, "No context chunks found"`, and `notFound` models
the `ValueError` whose message joins one "Chunk ID i not found in context"
clause per offending identifier, in input order. -/
inductive ChunkIdsError where
  | noContextChunks
  | notFound (cited : List Int)
deriving DecidableEq

/-- The identifiers an error message cites. -/
def ChunkIdsError.cited : ChunkIdsError → List Int
  | .noContextChunks => []
  | .notFound l => l

/-- Shallow embedding of `StatementEvaluation.ensure_list_of_ints`
(faithfulness.py).  `v` is the raw `supporting_chunk_ids` value and `n` the
context size (the validation context holds one `{'id': i, ...}` dict per
context chunk, so `chunk_ids = set(range(n))`).  `None` and `[]` pass through
untouched; otherwise an empty context trips the assertion, and each identifier
outside `set(range(n))` is collected into the `ValueError`. -/
def ensure_list_of_ints (v : Option (List Int)) (n : Nat) :
    Except ChunkIdsError (Option (List Int)) :=
  match v with
  | none => .ok none
  | some [] => .ok (some [])
  | some l =>
    if n = 0 then .error .noContextChunks
    else if l.filter (fun i => decide (¬(0 ≤ i ∧ i < (n : Int)))) = [] then .ok (some l)
    else .error (.notFound (l.filter (fun i => decide (¬(0 ≤ i ∧ i < (n : Int))))))

/-- Shallow embedding of `StatementEvaluation.validate_supporting_chunks`
(faithfulness.py): a statement with `is_supported` and a falsy
`supporting_chunk_ids` (null or empty) raises `ValueError`. -/
def validate_supporting_chunks (s : StatementEvaluation) :
    Except String StatementEvaluation :=
  if s.is_supported ∧ (s.supporting_chunk_ids = none ∨ s.supporting_chunk_ids = some []) then
    .error "A supported statement must have at least one supporting chunk ID"
  else .ok s

/-- Failure values of the whole `StatementEvaluation` validation. -/
inductive StatementError where
  | chunkIds (e : ChunkIdsError)
  | unsupportedEmpty (msg : String)
deriving DecidableEq

/-- Full validation of one `StatementEvaluation` against a context of size `n`:
pydantic first runs the `supporting_chunk_ids` field validator
(`ensure_list_of_ints`, mode before), then the model validator
(`validate_supporting_chunks`, mode after).  Any failure fails the whole
statement (and with it the enclosing result). -/
def StatementEvaluation.validate (s : StatementEvaluation) (n : Nat) :
    Except StatementError StatementEvaluation :=
  match ensure_list_of_ints s.supporting_chunk_ids n with
  | .error e => .error (.chunkIds e)
  | .ok v =>
    match validate_supporting_chunks { s with supporting_chunk_ids := v } with
    | .error msg => .error (.unsupportedEmpty msg)
    | .ok s2 => .ok s2

/-- One enumerated context chunk as `ContextEvaluation.grade` builds it:
`{"id": i, "chunk": chunk}`. -/
structure IndexedChunk where
  id : Nat
  chunk : String
deriving DecidableEq

/-- The context indexer inside `ContextEvaluation.grade` (base.py):
`[{"id": i, "chunk": chunk} for i, chunk in enumerate(context)]`. -/
def index (context : List String) : List IndexedChunk :=
  (List.enum context).map (fun p => { id := p.1, chunk := p.2 })

/-! ## Helper lemmas about the chunk-reference validator -/

theorem mem_invalid_ids {n : Nat} {chunks : List GradedChunk} {i : Int} :
    i ∈ invalid_ids n chunks ↔
      ∃ c ∈ chunks, c.id_chunk = some i ∧ ¬(0 ≤ i ∧ i < (n : Int)) := by
  unfold invalid_ids
  rw [List.mem_toFinset, List.mem_filter]
  simp only [List.mem_filterMap, decide_eq_true_eq]
  constructor
  · rintro ⟨⟨c, hc, hid⟩, hrange⟩
    exact ⟨c, hc, hid, hrange⟩
  · rintro ⟨c, hc, hid, hrange⟩
    exact ⟨⟨c, hc, hid⟩, hrange⟩

theorem invalid_ids_eq_empty {n : Nat} {chunks : List GradedChunk} :
    invalid_ids n chunks = ∅ ↔
      ∀ c ∈ chunks, ∀ i : Int, c.id_chunk = some i → 0 ≤ i ∧ i < (n : Int) := by
  rw [Finset.eq_empty_iff_forall_not_mem]
  constructor
  · intro h c hc i hid
    by_contra hrange
    exact h i (mem_invalid_ids.mpr ⟨c, hc, hid, hrange⟩)
  · intro h i hi
    obtain ⟨c, hc, hid, hrange⟩ := mem_invalid_ids.mp hi
    exact hrange (h c hc i hid)

theorem inRange_eq_true {n : Nat} {c : GradedChunk} :
    c.inRange n = true ↔ ∃ i, c.id_chunk = some i ∧ 0 ≤ i ∧ i < (n : Int) := by
  cases c <;> simp [GradedChunk.inRange, GradedChunk.id_chunk]

theorem map_sortKey_of_all_some {l : List GradedChunk}
    (h : ∀ c ∈ l, (c.id_chunk).isSome) :
    l.map sortKey = l.filterMap GradedChunk.id_chunk := by
  induction l with
  | nil => rfl
  | cons c rest ih =>
    obtain ⟨i, hi⟩ := Option.isSome_iff_exists.mp (h c (by simp))
    simp only [List.map_cons, List.filterMap_cons, hi]
    rw [ih (fun x hx => h x (by simp [hx]))]
    simp [sortKey, hi]

theorem map_id_chunk_of_all_some {l : List GradedChunk}
    (h : ∀ c ∈ l, (c.id_chunk).isSome) :
    l.map GradedChunk.id_chunk = (l.map sortKey).map some := by
  induction l with
  | nil => rfl
  | cons c rest ih =>
    obtain ⟨i, hi⟩ := Option.isSome_iff_exists.mp (h c (by simp))
    simp only [List.map_cons, hi]
    rw [ih (fun x hx => h x (by simp [hx]))]
    simp [sortKey, hi]

theorem filterMap_id_chunk_of_map_some {l : List GradedChunk} {ids : List Int}
    (h : l.map GradedChunk.id_chunk = ids.map some) :
    l.filterMap GradedChunk.id_chunk = ids := by
  have h1 : l.filterMap GradedChunk.id_chunk =
      (l.map GradedChunk.id_chunk).filterMap id := by
    rw [List.filterMap_map]
    rfl
  rw [h1, h, List.filterMap_map]
  exact List.filterMap_some ids

theorem append_filter_not_mem_perm {α : Type} [DecidableEq α] {A B : List α}
    (hA : A.Nodup) (hB : B.Nodup) (hsub : ∀ a ∈ A, a ∈ B) :
    (A ++ B.filter (fun b => decide (b ∉ A))).Perm B := by
  rw [List.perm_ext_iff_of_nodup _ hB]
  · intro a
    simp only [List.mem_append, List.mem_filter, decide_eq_true_eq]
    constructor
    · rintro (ha | ⟨hb, _⟩)
      · exact hsub a ha
      · exact hb
    · intro hb
      by_cases ha : a ∈ A
      · exact Or.inl ha
      · exact Or.inr ⟨hb, ha⟩
  · rw [List.nodup_append]
    refine ⟨hA, hB.filter _, ?_⟩
    intro a ha hfa
    rw [List.mem_filter, decide_eq_true_eq] at hfa
    exact hfa.2 ha

theorem first_pass_valid_eq_self {n : Nat} {chunks : List GradedChunk}
    (hvalid : ∀ c ∈ chunks, ∃ i, c.id_chunk = some i ∧ 0 ≤ i ∧ i < (n : Int)) :
    first_pass_valid n chunks = chunks :=
  List.filter_eq_self.mpr (fun c hc => inRange_eq_true.mpr (hvalid c hc))

theorem validate_eq_ok_sort {chunks : List GradedChunk} {n : Nat}
    (hne : chunks ≠ []) (hok : invalid_ids n chunks = ∅) :
    validate_chunks_against_context chunks n =
      .ok (List.insertionSort chunkLE
        (first_pass_valid n chunks ++
          (missing_chunk_ids_added n chunks).map
            (fun i => GradedChunk.ChunkScore (Int.ofNat i) 0))) := by
  unfold validate_chunks_against_context
  rw [if_neg hne, if_pos hok]

/-! ## C1 -/

/-- C1 (counterexample): the claim fails on an empty graded-chunk output.  For
`n = 1` and the empty output (which vacuously has all identifiers in `[0, 1)`
and covers `S = ∅`), the validator short-circuits on `if not chunks` and
returns the empty list instead of one synthesized entry, so it does not return
exactly `n` entries. -/
theorem validate_empty_input_breaks_coverage :
    validate_chunks_against_context ([] : List GradedChunk) 1 = .ok [] ∧
      ([] : List GradedChunk).length ≠ 1 := by
  decide

/-- C1 (amended): for every context of size `n` and every NON-EMPTY
graded-chunk output whose entries all carry PAIRWISE-DISTINCT identifiers in
`[0, n)`, the validator returns exactly `n` entries, sorted ascending by
identifier with exactly one entry per identifier, where every original entry
is kept unchanged (hence keeps its score) and every identifier the judge
omitted gets a synthesized `ChunkScore` entry with score 0. -/
theorem validate_full_coverage_sorted {chunks : List GradedChunk} {n : Nat}
    (hne : chunks ≠ [])
    (hvalid : ∀ c ∈ chunks, ∃ i, c.id_chunk = some i ∧ 0 ≤ i ∧ i < (n : Int))
    (hnodup : (chunks.filterMap GradedChunk.id_chunk).Nodup) :
    ∃ out, validate_chunks_against_context chunks n = .ok out ∧
      out.length = n ∧
      out.map GradedChunk.id_chunk = (List.range n).map (fun i => some (Int.ofNat i)) ∧
      (∀ c ∈ chunks, c ∈ out) ∧
      (∀ i : Nat, i < n → (i : Int) ∉ chunks.filterMap GradedChunk.id_chunk →
        GradedChunk.ChunkScore (Int.ofNat i) 0 ∈ out) := by
  have hsome : ∀ c ∈ chunks, (c.id_chunk).isSome := by
    intro c hc
    obtain ⟨i, hi, _⟩ := hvalid c hc
    simp [hi]
  have hok : invalid_ids n chunks = ∅ := by
    rw [invalid_ids_eq_empty]
    intro c hc i hid
    obtain ⟨j, hj, hb⟩ := hvalid c hc
    rw [hid] at hj
    injection hj with hh
    subst hh
    exact hb
  have hfp : first_pass_valid n chunks = chunks := first_pass_valid_eq_self hvalid
  have hproc : processed_ids n chunks = chunks.filterMap GradedChunk.id_chunk := by
    unfold processed_ids
    rw [hfp]
  have hkeys : chunks.map sortKey = chunks.filterMap GradedChunk.id_chunk :=
    map_sortKey_of_all_some hsome
  have hmiss : (missing_chunk_ids_added n chunks).map Int.ofNat =
      ((List.range n).map Int.ofNat).filter
        (fun b => decide (b ∉ chunks.filterMap GradedChunk.id_chunk)) := by
    unfold missing_chunk_ids_added
    rw [hproc, List.filter_map]
    rfl
  have hval : validate_chunks_against_context chunks n =
      .ok (List.insertionSort chunkLE
        (chunks ++ (missing_chunk_ids_added n chunks).map
          (fun i => GradedChunk.ChunkScore (Int.ofNat i) 0))) := by
    rw [validate_eq_ok_sort hne hok, hfp]
  set combined := chunks ++ (missing_chunk_ids_added n chunks).map
    (fun i => GradedChunk.ChunkScore (Int.ofNat i) 0) with hcomb
  set out := List.insertionSort chunkLE combined with hout
  have hperm : out.Perm combined := List.perm_insertionSort chunkLE combined
  have hcombkeys : combined.map sortKey =
      chunks.filterMap GradedChunk.id_chunk ++
        ((List.range n).map Int.ofNat).filter
          (fun b => decide (b ∉ chunks.filterMap GradedChunk.id_chunk)) := by
    rw [hcomb, List.map_append, hkeys, List.map_map, ← hmiss]
    rfl
  have hRnodup : ((List.range n).map Int.ofNat).Nodup :=
    (List.nodup_range n).map (fun a b hab => Int.ofNat.inj hab)
  have hAsub : ∀ a ∈ chunks.filterMap GradedChunk.id_chunk,
      a ∈ (List.range n).map Int.ofNat := by
    intro a ha
    obtain ⟨c, hc, hid⟩ := List.mem_filterMap.mp ha
    obtain ⟨j, hj, hb⟩ := hvalid c hc
    rw [hid] at hj
    injection hj with hh
    subst hh
    rw [List.mem_map]
    exact ⟨a.toNat, List.mem_range.mpr (by omega), Int.toNat_of_nonneg hb.1⟩
  have hpermKeys : (out.map sortKey).Perm ((List.range n).map Int.ofNat) := by
    refine (hperm.map sortKey).trans ?_
    rw [hcombkeys]
    exact append_filter_not_mem_perm hnodup hRnodup hAsub
  have hsorted_out : List.Pairwise (fun a b : Int => a ≤ b) (out.map sortKey) := by
    rw [List.pairwise_map]
    exact List.sorted_insertionSort chunkLE combined
  have hsorted_R : List.Pairwise (fun a b : Int => a ≤ b)
      ((List.range n).map Int.ofNat) := by
    rw [List.pairwise_map]
    exact (List.sorted_le_range n).imp (fun hab => Int.ofNat_le.mpr hab)
  have hkeyeq : out.map sortKey = (List.range n).map Int.ofNat :=
    List.eq_of_perm_of_sorted hpermKeys hsorted_out hsorted_R
  have hsome_out : ∀ c ∈ out, (c.id_chunk).isSome := by
    intro c hc
    rcases List.mem_append.mp (hperm.mem_iff.mp hc) with h | h
    · exact hsome c h
    · obtain ⟨i, _, rfl⟩ := List.mem_map.mp h
      rfl
  have hmapid : out.map GradedChunk.id_chunk =
      (List.range n).map (fun i => some (Int.ofNat i)) := by
    rw [map_id_chunk_of_all_some hsome_out, hkeyeq, List.map_map]
    rfl
  have hlen : out.length = n := by
    have hl := congrArg List.length hkeyeq
    simpa using hl
  refine ⟨out, hval, hlen, hmapid, ?_, ?_⟩
  · intro c hc
    exact hperm.mem_iff.mpr (List.mem_append.mpr (Or.inl hc))
  · intro i hi hnotin
    refine hperm.mem_iff.mpr (List.mem_append.mpr (Or.inr ?_))
    apply List.mem_map_of_mem
    unfold missing_chunk_ids_added
    rw [hproc, List.mem_filter]
    exact ⟨List.mem_range.mpr hi, by simpa using hnotin⟩

/-- C1 (witness): the amended theorem applied to the one-entry output
`[ChunkScore(id_chunk=1, score=1)]` against a two-chunk context. -/
theorem validate_full_coverage_sorted_example :
    ∃ out, validate_chunks_against_context [GradedChunk.ChunkScore 1 1] 2 = .ok out ∧
      out.length = 2 ∧
      out.map GradedChunk.id_chunk = (List.range 2).map (fun i => some (Int.ofNat i)) ∧
      (∀ c ∈ [GradedChunk.ChunkScore 1 1], c ∈ out) ∧
      (∀ i : Nat, i < 2 →
        (i : Int) ∉ [GradedChunk.ChunkScore 1 1].filterMap GradedChunk.id_chunk →
        GradedChunk.ChunkScore (Int.ofNat i) 0 ∈ out) :=
  validate_full_coverage_sorted (by decide)
    (by
      intro c hc
      rw [List.mem_singleton] at hc
      subst hc
      exact ⟨1, rfl, by norm_num⟩)
    (by decide)

/-! ## C8 -/

/-- C8 (confirmed): the validator is idempotent.  A graded-chunk sequence that
is already valid for context size `n` — exactly one entry per identifier,
identifiers `0..n-1` in ascending order (equivalently, its `id_chunk` map is
exactly `range n`) — is returned unchanged: re-validation performs no further
mutation. -/
theorem validate_idempotent_on_valid {chunks : List GradedChunk} {n : Nat}
    (h : chunks.map GradedChunk.id_chunk = (List.range n).map (fun i => some (Int.ofNat i))) :
    validate_chunks_against_context chunks n = .ok chunks := by
  rcases Nat.eq_zero_or_pos n with hn | hn
  · subst hn
    have hnil : chunks = [] := by
      have := congrArg List.length h
      simpa using this
    subst hnil
    rfl
  · have hne : chunks ≠ [] := by
      intro hcon
      subst hcon
      have := congrArg List.length h
      simp at this
      omega
    have hvalid : ∀ c ∈ chunks, ∃ i, c.id_chunk = some i ∧ 0 ≤ i ∧ i < (n : Int) := by
      intro c hc
      have hmem : c.id_chunk ∈ chunks.map GradedChunk.id_chunk :=
        List.mem_map_of_mem _ hc
      rw [h, List.mem_map] at hmem
      obtain ⟨m, hm, hmc⟩ := hmem
      have hmn := List.mem_range.mp hm
      exact ⟨Int.ofNat m, hmc.symm, Int.ofNat_nonneg m, Int.ofNat_lt.mpr hmn⟩
    have hok : invalid_ids n chunks = ∅ := by
      rw [invalid_ids_eq_empty]
      intro c hc i hid
      obtain ⟨j, hj, hb⟩ := hvalid c hc
      rw [hid] at hj
      injection hj with hh
      subst hh
      exact hb
    have hfp : first_pass_valid n chunks = chunks := first_pass_valid_eq_self hvalid
    have hfm : chunks.filterMap GradedChunk.id_chunk = (List.range n).map Int.ofNat := by
      apply filterMap_id_chunk_of_map_some
      rw [h, List.map_map]
      rfl
    have hproc : processed_ids n chunks = (List.range n).map Int.ofNat := by
      unfold processed_ids
      rw [hfp, hfm]
    have hmiss : missing_chunk_ids_added n chunks = [] := by
      unfold missing_chunk_ids_added
      rw [List.filter_eq_nil_iff]
      intro a ha
      simp only [decide_eq_true_eq, not_not, hproc]
      exact List.mem_map_of_mem _ ha
    have hkeys : chunks.map sortKey = (List.range n).map Int.ofNat := by
      have hs : ∀ c ∈ chunks, (c.id_chunk).isSome := by
        intro c hc
        obtain ⟨i, hi, _⟩ := hvalid c hc
        simp [hi]
      rw [map_sortKey_of_all_some hs, hfm]
    have hsorted : List.Sorted chunkLE chunks := by
      have hp : List.Pairwise (fun a b : Int => a ≤ b) (chunks.map sortKey) := by
        rw [hkeys, List.pairwise_map]
        exact (List.sorted_le_range n).imp (fun hab => Int.ofNat_le.mpr hab)
      rw [List.pairwise_map] at hp
      exact hp
    rw [validate_eq_ok_sort hne hok, hfp, hmiss]
    rw [List.map_nil, List.append_nil, List.Sorted.insertionSort_eq hsorted]

/-- C8 (witness): re-validating the already-valid two-entry sequence
`[ChunkScore(0, 1), ChunkScore(1, 0)]` against context size 2 returns it
unchanged. -/
theorem validate_idempotent_on_valid_example :
    validate_chunks_against_context
      [GradedChunk.ChunkScore 0 1, GradedChunk.ChunkScore 1 0] 2 =
      .ok [GradedChunk.ChunkScore 0 1, GradedChunk.ChunkScore 1 0] :=
  validate_idempotent_on_valid (by decide)

/-! ## C2 -/

/-- C2 (confirmed): whenever the graded-chunk output contains an entry whose
identifier is out of range (negative or at least the context size), the
validator fails, and the raised error carries exactly the set of out-of-range
identifiers present in the input (every offending identifier is enumerated,
and nothing is silently dropped: no value is returned at all). -/
theorem validate_reports_all_invalid_ids {chunks : List GradedChunk} {n : Nat}
    (h : ∃ c ∈ chunks, ∃ i, c.id_chunk = some i ∧ (i < 0 ∨ (n : Int) ≤ i)) :
    ∃ E, validate_chunks_against_context chunks n = .error E ∧
      ∀ i : Int, i ∈ E ↔
        ∃ c ∈ chunks, c.id_chunk = some i ∧ (i < 0 ∨ (n : Int) ≤ i) := by
  obtain ⟨c, hc, i, hid, hrange⟩ := h
  have hne : chunks ≠ [] := List.ne_nil_of_mem hc
  have hmem : i ∈ invalid_ids n chunks :=
    mem_invalid_ids.mpr ⟨c, hc, hid, by omega⟩
  have hnonempty : ¬(invalid_ids n chunks = ∅) := by
    intro hcon
    rw [hcon] at hmem
    exact absurd hmem (Finset.not_mem_empty i)
  refine ⟨invalid_ids n chunks, ?_, ?_⟩
  · unfold validate_chunks_against_context
    rw [if_neg hne, if_neg hnonempty]
  · intro j
    rw [mem_invalid_ids]
    constructor
    · rintro ⟨d, hd, hjd, hrj⟩
      exact ⟨d, hd, hjd, by omega⟩
    · rintro ⟨d, hd, hjd, hrj⟩
      exact ⟨d, hd, hjd, by omega⟩

/-- C2 (witness): the output `[ChunkScore(5, 1), ChunkScore(-1, 0),
ChunkScore(0, 1)]` against a three-chunk context fails with an error set
containing exactly the offending identifiers 5 and -1. -/
theorem validate_reports_all_invalid_ids_example :
    ∃ E, validate_chunks_against_context
        [GradedChunk.ChunkScore 5 1, GradedChunk.ChunkScore (-1) 0,
          GradedChunk.ChunkScore 0 1] 3 = .error E ∧
      ∀ i : Int, i ∈ E ↔
        ∃ c ∈ [GradedChunk.ChunkScore 5 1, GradedChunk.ChunkScore (-1) 0,
          GradedChunk.ChunkScore 0 1], c.id_chunk = some i ∧ (i < 0 ∨ (3 : Int) ≤ i) :=
  validate_reports_all_invalid_ids
    ⟨GradedChunk.ChunkScore 5 1, by simp, 5, rfl, by norm_num⟩

/-! ## C4 -/

/-- C4 (counterexample): the claim that boolean-scored schemas get a
synthesized `false` entry is wrong.  For the `ChunkGradedBinary` output
`[ChunkBinaryScore(0, true)]` against a two-chunk context, the validator
synthesizes `ChunkScore(id_chunk=1, score=0.0)` — a float-scored `ChunkScore`
object — and no `ChunkBinaryScore(1, false)` entry appears in the result. -/
theorem binary_schema_synthesized_entry_is_float :
    validate_chunks_against_context [GradedChunk.ChunkBinaryScore 0 true] 2 =
      .ok [GradedChunk.ChunkBinaryScore 0 true, GradedChunk.ChunkScore 1 0] ∧
    GradedChunk.ChunkBinaryScore 1 false ∉
      [GradedChunk.ChunkBinaryScore 0 true, GradedChunk.ChunkScore 1 0] := by
  decide

/-- C4 (amended): whenever the validator synthesizes entries for identifiers
the judge omitted, the synthesized entry is always `ChunkScore(id_chunk=i,
score=0.0)` — the float-scored class with score 0 — for float-scored AND
boolean-scored schemas alike, and the synthesis is recoverable: the result is
a successful value (the synthesized identifiers being the
`missing_chunk_ids_added` list reported via `logger.warning`), not an
error. -/
theorem validate_synthesizes_chunkscore_zero {chunks : List GradedChunk} {n : Nat}
    (hne : chunks ≠ []) (hok : invalid_ids n chunks = ∅) :
    ∃ out, validate_chunks_against_context chunks n = .ok out ∧
      ∀ i ∈ missing_chunk_ids_added n chunks,
        GradedChunk.ChunkScore (Int.ofNat i) 0 ∈ out := by
  refine ⟨_, validate_eq_ok_sort hne hok, ?_⟩
  intro i hi
  exact (List.perm_insertionSort chunkLE _).mem_iff.mpr
    (List.mem_append.mpr (Or.inr (List.mem_map_of_mem _ hi)))

/-- C4 (witness): the amended theorem applied to the binary-scored output
`[ChunkBinaryScore(0, true)]` against a two-chunk context (so identifier 1 is
missing and gets a float-scored `ChunkScore` synthesized). -/
theorem validate_synthesizes_chunkscore_zero_example :
    ∃ out, validate_chunks_against_context [GradedChunk.ChunkBinaryScore 0 true] 2 =
        .ok out ∧
      ∀ i ∈ missing_chunk_ids_added 2 [GradedChunk.ChunkBinaryScore 0 true],
        GradedChunk.ChunkScore (Int.ofNat i) 0 ∈ out :=
  validate_synthesizes_chunkscore_zero (by decide) (by decide)

/-! ## C10 -/

/-- C10 (confirmed): an entry lacking an `id_chunk` attribute is silently
skipped (it is recorded in the warned-about `chunks_without_id` list, which is
then nonempty) rather than failing the result: when all other entries are in
range the validator still succeeds, the skipped entry is excluded from the
output, and every context position left uncovered receives a synthesized
`ChunkScore` entry with score 0. -/
theorem validate_skips_entries_without_id {chunks : List GradedChunk} {n : Nat}
    (hmem : GradedChunk.NoId ∈ chunks)
    (hok : invalid_ids n chunks = ∅) :
    ∃ out, validate_chunks_against_context chunks n = .ok out ∧
      GradedChunk.NoId ∉ out ∧
      chunks_without_id chunks ≠ [] ∧
      ∀ i : Nat, i < n → (i : Int) ∉ chunks.filterMap GradedChunk.id_chunk →
        GradedChunk.ChunkScore (Int.ofNat i) 0 ∈ out := by
  have hne : chunks ≠ [] := List.ne_nil_of_mem hmem
  refine ⟨_, validate_eq_ok_sort hne hok, ?_, ?_, ?_⟩
  · intro hcon
    have hc2 := (List.perm_insertionSort chunkLE _).mem_iff.mp hcon
    rcases List.mem_append.mp hc2 with h | h
    · have hr := (List.mem_filter.mp h).2
      simp [GradedChunk.inRange, GradedChunk.id_chunk] at hr
    · obtain ⟨j, _, hj⟩ := List.mem_map.mp h
      exact GradedChunk.noConfusion hj
  · exact List.ne_nil_of_mem (List.mem_filter.mpr ⟨hmem, rfl⟩)
  · intro i hi hnotin
    refine (List.perm_insertionSort chunkLE _).mem_iff.mpr
      (List.mem_append.mpr (Or.inr ?_))
    apply List.mem_map_of_mem
    unfold missing_chunk_ids_added
    rw [List.mem_filter]
    refine ⟨List.mem_range.mpr hi, ?_⟩
    simp only [decide_eq_true_eq]
    intro hp
    exact hnotin (((List.filter_sublist chunks).filterMap GradedChunk.id_chunk).subset hp)

/-- C10 (witness): the theorem applied to `[NoId, ChunkScore(0, 1)]` against a
two-chunk context — the attribute-less entry is skipped with a warning,
excluded from the output, and position 1 gets a synthesized zero entry. -/
theorem validate_skips_entries_without_id_example :
    ∃ out, validate_chunks_against_context
        [GradedChunk.NoId, GradedChunk.ChunkScore 0 1] 2 = .ok out ∧
      GradedChunk.NoId ∉ out ∧
      chunks_without_id [GradedChunk.NoId, GradedChunk.ChunkScore 0 1] ≠ [] ∧
      ∀ i : Nat, i < 2 →
        (i : Int) ∉ [GradedChunk.NoId, GradedChunk.ChunkScore 0 1].filterMap
          GradedChunk.id_chunk →
        GradedChunk.ChunkScore (Int.ofNat i) 0 ∈ out :=
  validate_skips_entries_without_id (by decide) (by decide)

/-! ## C3 -/

/-- C3 (confirmed): in `validate_supporting_chunks`, a statement with
`is_supported = true` and an empty or absent supporting-identifier set fails
validation, while a statement with `is_supported = false` passes this check
regardless of its supporting-identifier set. -/
theorem supported_statement_requires_support (s : StatementEvaluation) :
    (s.is_supported = true →
      (s.supporting_chunk_ids = none ∨ s.supporting_chunk_ids = some []) →
      validate_supporting_chunks s =
        .error "A supported statement must have at least one supporting chunk ID") ∧
    (s.is_supported = false → validate_supporting_chunks s = .ok s) := by
  constructor
  · intro hsup hempty
    unfold validate_supporting_chunks
    rw [if_pos ⟨hsup, hempty⟩]
  · intro hsup
    unfold validate_supporting_chunks
    rw [if_neg (by simp [hsup])]

/-- C3 (witness): a supported statement with an absent supporting set fails,
and an unsupported statement with a supporting set passes. -/
theorem supported_statement_requires_support_example :
    validate_supporting_chunks ⟨"X", true, none⟩ =
      .error "A supported statement must have at least one supporting chunk ID" ∧
    validate_supporting_chunks ⟨"Y", false, some [0, 2]⟩ =
      .ok ⟨"Y", false, some [0, 2]⟩ :=
  ⟨(supported_statement_requires_support ⟨"X", true, none⟩).1 rfl (Or.inl rfl),
    (supported_statement_requires_support ⟨"Y", false, some [0, 2]⟩).2 rfl⟩

/-! ## C5 -/

/-- C5 (code bug): for an empty context and an empty judge output the
validated `graded_chunks` sequence is indeed empty (first half of the claim),
but the derived average over that empty sequence is NOT 0.0: `avg_score`
computes `sum(...) / len(self.graded_chunks)` with no emptiness guard, so
Python raises `ZeroDivisionError` (modelled as `none`) instead of returning
0.0.  The sibling aggregators `FaithfulnessResult.overall_faithfulness_score`
and `BatchEvaluationResults.average_score` both guard the empty case and
return 0.0, which is the behaviour the claim describes. -/
theorem empty_graded_chunks_avg_raises :
    validate_chunks_against_context ([] : List GradedChunk) 0 = .ok [] ∧
    avg_score ([] : List GradedChunk) = none := by
  decide

/-! ## C6 -/

/-- C6 (counterexample): for a result carrying only a graded-entries
collection (no `score`, no `overall_score`) whose derived average is 1, the
claimed extraction convention requires the derived overall score 1, but the
code's `EvaluationResult.score` has no graded-entries branch and falls through
to the default 0. -/
theorem score_extraction_ignores_graded_chunks :
    EvaluationResult.score ⟨none, none, some [GradedChunk.ChunkScore 0 1]⟩ = 0 ∧
    spec_score_convention ⟨none, none, some [GradedChunk.ChunkScore 0 1]⟩ = some 1 ∧
    (0 : ℚ) ≠ 1 := by
  refine ⟨rfl, ?_, by norm_num⟩
  norm_num [spec_score_convention, avg_score, GradedChunk.score]

/-- C6 (amended): the derived overall score is the result's direct `score`
field if present; otherwise its direct `overall_score` field if present;
otherwise the default 0 (with a logged warning) — the code derives no average
over a graded-entries collection, even when the result carries one. -/
theorem score_extraction_actual_order (r : ResultModel) :
    (∀ s, r.score? = some s → EvaluationResult.score r = s) ∧
    (r.score? = none → ∀ s, r.overall_score? = some s → EvaluationResult.score r = s) ∧
    (r.score? = none → r.overall_score? = none → EvaluationResult.score r = 0) := by
  refine ⟨?_, ?_, ?_⟩
  · intro s hs
    simp [EvaluationResult.score, hs]
  · intro h0 s hs
    simp [EvaluationResult.score, h0, hs]
  · intro h0 h1
    simp [EvaluationResult.score, h0, h1]

/-- C6 (witness): a result with only `overall_score = 1` (and a graded-entries
collection present) gets overall score 1 from the second branch. -/
theorem score_extraction_actual_order_example :
    EvaluationResult.score ⟨none, some 1, some [GradedChunk.ChunkScore 0 0]⟩ = 1 :=
  (score_extraction_actual_order ⟨none, some 1, some [GradedChunk.ChunkScore 0 0]⟩).2.1
    rfl 1 rfl

/-! ## C7 -/

/-- C7 (counterexample): against an empty context (`context_size = 0`), a
non-empty supporting set with the out-of-range identifier 7 fails through the
`assert len(chunk_ids) > 0, "No context chunks found"` assertion, whose error
does not cite identifier 7 — so "fails with an error citing that identifier"
does not hold universally. -/
theorem out_of_range_id_empty_context_uncited :
    ensure_list_of_ints (some [7]) 0 = .error ChunkIdsError.noContextChunks ∧
    (7 : Int) ∉ (ChunkIdsError.noContextChunks).cited := by
  decide

/-- C7 (amended): for a NON-EMPTY context of size `n`, every identifier in a
statement's `supporting_chunk_ids` set must lie in `[0, n)`; an out-of-range
identifier fails validation of the whole statement (hence of the enclosing
result) with a `ValueError` whose message cites that identifier.  (Against an
empty context, a non-empty supporting set still fails, but through a generic
"No context chunks found" assertion that cites no identifier.) -/
theorem out_of_range_support_id_fails_cited {s : StatementEvaluation} {n : Nat}
    {l : List Int} {i : Int}
    (hl : s.supporting_chunk_ids = some l) (hi : i ∈ l)
    (hrange : i < 0 ∨ (n : Int) ≤ i) (hn : 1 ≤ n) :
    ∃ errs, StatementEvaluation.validate s n =
        .error (StatementError.chunkIds (ChunkIdsError.notFound errs)) ∧
      i ∈ errs := by
  rcases l with _ | ⟨a, l2⟩
  · exact absurd hi (List.not_mem_nil i)
  · have hmem : i ∈ (a :: l2).filter (fun j => decide (¬(0 ≤ j ∧ j < (n : Int)))) :=
      List.mem_filter.mpr ⟨hi, by simp only [decide_eq_true_eq]; omega⟩
    have hens : ensure_list_of_ints (some (a :: l2)) n =
        .error (ChunkIdsError.notFound
          ((a :: l2).filter (fun j => decide (¬(0 ≤ j ∧ j < (n : Int)))))) := by
      simp only [ensure_list_of_ints]
      rw [if_neg (by omega : ¬n = 0), if_neg (List.ne_nil_of_mem hmem)]
    refine ⟨_, ?_, hmem⟩
    unfold StatementEvaluation.validate
    rw [hl, hens]

/-- C7 (witness): statement "X" marked supported with
`supporting_chunk_ids = [7]` against a 3-chunk context fails with an error
citing identifier 7 (the spec's Scenario B). -/
theorem out_of_range_support_id_fails_cited_example :
    ∃ errs, StatementEvaluation.validate ⟨"X", true, some [7]⟩ 3 =
        .error (StatementError.chunkIds (ChunkIdsError.notFound errs)) ∧
      (7 : Int) ∈ errs :=
  out_of_range_support_id_fails_cited rfl (by decide) (Or.inr (by norm_num))
    (by norm_num)

/-! ## C9 -/

/-- C9 (confirmed): the context indexer of `ContextEvaluation.grade` is a
deterministic pure function: empty input yields empty output, the output has
one element per input chunk, indexing is reproducible, and the i-th output
element receives identifier i. -/
theorem index_assigns_positional_ids (context : List String) :
    index ([] : List String) = [] ∧
    (index context).length = context.length ∧
    index context = index context ∧
    ∀ i : Nat, ∀ h : i < (index context).length, ((index context).get ⟨i, h⟩).id = i := by
  refine ⟨rfl, ?_, rfl, ?_⟩
  · simp [index]
  · intro i h
    rw [List.get_eq_getElem]
    simp [index, List.getElem_enum]

/-- C9 (witness): the middle element of a three-chunk context receives
identifier 1. -/
theorem index_assigns_positional_ids_example :
    ((index ["a", "b", "c"]).get ⟨1, by decide⟩).id = 1 :=
  (index_assigns_positional_ids ["a", "b", "c"]).2.2.2 1 (by decide)

end RagEvals
